import Mathlib

/-
Verification of the NPDL-scripts cortical-surface neighborhood core against
its natural-language specification.

Shallow embedding of:
  - src/lib/npdl_utils.py      (Surface.construct_neighbors, find_neighbors,
                                project_coord)
  - src/data/searchlight/make_searchlight.py  (ragged-row padding / encoding)
  - src/lib/npdl_mvpa.py       (CachedSurfaceQueryEngine: construct, train,
                                untrain, query_byid)

Python floats are modelled as rationals, numpy integer arrays as lists of
Int, and each raise site is mapped to a distinct constructor of NPDLError
following the error taxonomy of the spec.
-/

set_option autoImplicit false

namespace NPDL

/-- Error taxonomy of the spec (section 7).  Each constructor corresponds to a
distinct raise site of the source. -/
inductive NPDLError where
  /-- ValueError raised by `CachedSurfaceQueryEngine.__init__` for a bad
  hemisphere or radius. -/
  | configurationError
  /-- ValueError raised by `_check_trained` when `_vertex2feature_map` is
  `None`. -/
  | untrainedError
  /-- KeyError raised by the explicit range check of `query_byid`, and
  ValueError raised by the vertex-id check of `train`. -/
  | inputValidationError
  /-- KeyError raised by the dict lookup `v2f[node]` inside `query_byid` when
  a cached neighbor vertex is absent from the trained map. -/
  | lookupConsistencyError
  deriving Repr, DecidableEq

/-! ## Sorting and deduplication (model of `numpy.unique`)

`np.unique(xs)` returns the sorted list of distinct values of `xs`.  We model
it as insertion sort followed by `dedup`. -/

/-- Insert `x` into a sorted list, keeping it sorted. -/
def insertSorted (x : Int) : List Int → List Int
  | [] => [x]
  | y :: ys => if x ≤ y then x :: y :: ys else y :: insertSorted x ys

/-- Insertion sort for lists of integers. -/
def sortInts (l : List Int) : List Int :=
  l.foldr insertSorted []

/-- Model of `np.unique`: the sorted list of distinct values. -/
def uniqueSorted (l : List Int) : List Int :=
  (sortInts l).dedup

/-! ## Surface adjacency (`Surface.construct_neighbors`, npdl_utils.py 121-142)

For every triangular face and every position `i` in the face, the Python code
appends the other two face vertices to `nbr_dict[face[i]]`.  `facePairs`
lists, for one face `(x, y, z)`, all resulting (key, appended value) pairs in
iteration order; `faceContrib f v` is then exactly the sequence of values
appended to key `v` while processing face `f`. -/

/-- The six (key, value) append pairs generated by one face. -/
def facePairs (f : Int × Int × Int) : List (Int × Int) :=
  [(f.1, f.2.1), (f.1, f.2.2),
   (f.2.1, f.1), (f.2.1, f.2.2),
   (f.2.2, f.1), (f.2.2, f.2.1)]

/-- The values appended to `nbr_dict[v]` while processing face `f`, in order. -/
def faceContrib (f : Int × Int × Int) (v : Int) : List Int :=
  (facePairs f).filterMap fun p => if p.1 = v then some p.2 else none

/-- The full contents of `nbr_dict[v]` after all faces are processed
(empty iff `v` never occurs in a face, i.e. iff the key is absent). -/
def nbrList (faces : List (Int × Int × Int)) (v : Int) : List Int :=
  (faces.map fun f => faceContrib f v).flatten

/-- The deduplicated sorted neighbor row `np.unique(nbr_dict[v])` for each
vertex `v` in `range(num_verts)`. -/
def adjRows (num_verts : Nat) (faces : List (Int × Int × Int)) : List (List Int) :=
  (List.range num_verts).map fun (v : Nat) => uniqueSorted (nbrList faces (v : Int))

/-- `actual_max_neighbors`: the maximum row size over all vertices. -/
def adjWidth (rows : List (List Int)) : Nat :=
  rows.foldr (fun r acc => max r.length acc) 0

/-- Right-pad a row with the pad value up to width `w`. -/
def padRow (w : Nat) (pad : Int) (r : List Int) : List Int :=
  r ++ List.replicate (w - r.length) pad

/-- Model of `Surface.construct_neighbors`.  Returns `none` when the Python
code raises: a KeyError for a vertex that occurs in no face, or a broadcast
error when a vertex has more than `max_neighbors` distinct neighbors.
Otherwise returns the table of sorted neighbor rows, each right-padded with
the pad value `num_verts` to the maximum observed row size. -/
def construct_neighbors (num_verts : Nat) (faces : List (Int × Int × Int))
    (max_neighbors : Nat) : Option (List (List Int)) :=
  if (adjRows num_verts faces).all
      (fun r => !r.isEmpty && decide (r.length ≤ max_neighbors)) = true then
    some ((adjRows num_verts faces).map
      (padRow (adjWidth (adjRows num_verts faces)) (num_verts : Int)))
  else
    none

/-! ## `Surface.find_neighbors` (npdl_utils.py 144-152)

`stat` is augmented with NaN at index `num_verts`, so a sentinel entry always
fails the `<=` mask; we model that NaN comparison by the explicit
`e ≠ num_verts` conjunct.  The final `setdiff1d(unique(...), [num_verts])` is
the sorted deduplication followed by removal of the pad value. -/

def find_neighbors (neighbors : List (List Int)) (num_verts : Nat)
    (verts : List Nat) (lower : Bool) (stat : Option (List Int)) : List Int :=
  let selected : List Int :=
    match lower, stat with
    | true, some s =>
        ((verts.map fun v =>
          (neighbors.getD v []).filter fun e =>
            decide (e ≠ (num_verts : Int)) &&
              decide (s.getD e.toNat 0 ≤ s.getD v 0))).flatten
    | _, _ => (verts.map fun v => neighbors.getD v []).flatten
  (uniqueSorted selected).filter fun x => decide (x ≠ (num_verts : Int))

/-! ## `Surface.project_coord` (npdl_utils.py 154-159) -/

/-- Squared Euclidean distance between two 3d points. -/
def sqDist (a b : ℚ × ℚ × ℚ) : ℚ :=
  (a.1 - b.1) ^ 2 + (a.2.1 - b.2.1) ^ 2 + (a.2.2 - b.2.2) ^ 2

/-- Helper for `argminIdx`: running first-occurrence minimum. -/
def argminAux : List ℚ → ℚ → Nat → Nat → Nat
  | [], _, best, _ => best
  | x :: xs, bv, best, i =>
      if x < bv then argminAux xs x i (i + 1) else argminAux xs bv best (i + 1)

/-- Model of `np.argmin`: index of the first occurrence of the minimum;
`none` on an empty array (where numpy raises). -/
def argminIdx : List ℚ → Option Nat
  | [] => none
  | x :: xs => some (argminAux xs x 0 1)

/-- Model of `Surface.project_coord`: the vertex minimizing squared Euclidean
distance to the coordinate, ties broken by lowest index.  Performs no input
validation of any kind. -/
def project_coord (coords : List (ℚ × ℚ × ℚ)) (coord : ℚ × ℚ × ℚ) : Option Nat :=
  argminIdx (coords.map fun p => sqDist p coord)

/-! ## Searchlight cache encoding (make_searchlight.py 30-35)

`max_row_len` is `max(np.sum(sl, 1))` over the binary ROI masks, i.e. the
maximum row length of the ragged index rows; each row is right-padded with
the sentinel -99 up to that width.  The query engine decodes a row by
dropping every entry equal to -99 (npdl_mvpa.py 166-169). -/

def max_row_len (rows : List (List Int)) : Nat :=
  rows.foldr (fun r acc => max r.length acc) 0

/-- The pipeline encoding: right-pad every ragged row with sentinel -99 up to
the maximum row length. -/
def encode_searchlight (rows : List (List Int)) : List (List Int) :=
  rows.map fun r => r ++ List.replicate (max_row_len rows - r.length) (-99)

/-- The query-engine decoding, applied rowwise: drop every entry equal to the
sentinel -99. -/
def decode_searchlight (tbl : List (List Int)) : List (List Int) :=
  tbl.map fun r => r.filter fun x => decide (x ≠ -99)

/-! ## `CachedSurfaceQueryEngine` (npdl_mvpa.py)

The gzip file content is passed in as the already-decoded rectangular table
`sl`; `radius` is a Python float, modelled as a rational.  The trained
vertex-to-feature dict is modelled as the zip assoc list with
last-write-wins lookup, matching `dict(zip(vertex_ids, xrange(n)))`. -/

structure CachedSurfaceQueryEngine where
  hemi : String
  radius : ℚ
  nverts : Nat
  sl : List (List Int)
  invalid : Int
  vertex2feature_map : Option (List (Int × Nat))
  deriving Repr, DecidableEq

/-- The radii accepted by `CachedSurfaceQueryEngine.__init__`:
`range(8, 22, 2)`. -/
def allowed_radii : List ℚ := [8, 10, 12, 14, 16, 18, 20]

/-- The radii for which the precomputation pipeline writes a cache file:
`np.arange(4, 21, 2)` in make_searchlight.py line 13. -/
def pipeline_radii : List ℚ := [4, 6, 8, 10, 12, 14, 16, 18, 20]

/-- Model of `CachedSurfaceQueryEngine.__init__` (npdl_mvpa.py 35-76):
validates the hemisphere and radius, then loads the cache (here passed in as
`cache`) into a Loaded (untrained) engine with the hard-coded 32492 vertices
of the 32k_fs_LR surface and sentinel -99. -/
def construct (hemi : String) (radius : ℚ) (cache : List (List Int)) :
    Except NPDLError CachedSurfaceQueryEngine :=
  if ¬(hemi = "lh" ∨ hemi = "rh") then
    .error .configurationError
  else if radius ∉ allowed_radii then
    .error .configurationError
  else
    .ok { hemi := hemi, radius := radius, nverts := 32492, sl := cache,
          invalid := -99, vertex2feature_map := none }

/-- Model of `dict(zip(ks, vs))[k]`: the value paired with the last
occurrence of `k` (later zip entries overwrite earlier ones). -/
def dictLookup (m : List (Int × Nat)) (k : Int) : Option Nat :=
  match m.reverse.find? (fun p => decide (p.1 = k)) with
  | none => none
  | some p => some p.2

/-- Model of `CachedSurfaceQueryEngine.train` (npdl_mvpa.py 113-142): checks
every supplied vertex id lies in `range(nverts)` (via `setdiff1d`), then
replaces the vertex-to-feature map with `dict(zip(vertex_ids, xrange(n)))`,
regardless of any previously trained map. -/
def train (e : CachedSurfaceQueryEngine) (vertex_ids : List Int) :
    Except NPDLError CachedSurfaceQueryEngine :=
  if vertex_ids.all
      (fun v => decide (0 ≤ v) && decide (v < (e.nverts : Int))) = true then
    .ok { e with
          vertex2feature_map := some (vertex_ids.zip (List.range vertex_ids.length)) }
  else
    .error .inputValidationError

/-- Model of `CachedSurfaceQueryEngine.untrain` (npdl_mvpa.py 110-111). -/
def untrain (e : CachedSurfaceQueryEngine) : CachedSurfaceQueryEngine :=
  { e with vertex2feature_map := none }

/-- Python 2 `round`: round half away from zero, i.e.
`sign(q) * floor(abs(q) + 1/2)`.  Computed on the numerator and denominator
fields (the floor of `(2 * n + d) / (2 * d)` in natural division) so that the
definition evaluates by kernel reduction. -/
def pyRound (q : ℚ) : ℚ :=
  if q.num < 0 then -(((2 * q.num.natAbs + q.den) / (2 * q.den) : Nat) : ℚ)
  else (((2 * q.num.natAbs + q.den) / (2 * q.den) : Nat) : ℚ)

/-- Map every node of a cached row through the trained dict, left to right;
the first node absent from the dict aborts the whole query (the KeyError of
`v2f[node]` inside the list comprehension), so no partial list escapes. -/
def mapLookupAll (v2f : List (Int × Nat)) : List Int → Except NPDLError (List Nat)
  | [] => .ok []
  | n :: ns =>
      match dictLookup v2f n with
      | none => .error .lookupConsistencyError
      | some f =>
          match mapLookupAll v2f ns with
          | .error err => .error err
          | .ok fs => .ok (f :: fs)

/-- Model of `CachedSurfaceQueryEngine.query_byid` (npdl_mvpa.py 147-173):
requires a trained map, validates that `vertex_id` is an integer in
`range(nverts)`, fetches the cached row, drops sentinel entries, and maps
every surviving vertex id through the trained dict. -/
def query_byid (e : CachedSurfaceQueryEngine) (vertex_id : ℚ) :
    Except NPDLError (List Nat) :=
  match e.vertex2feature_map with
  | none => .error .untrainedError
  | some v2f =>
      if vertex_id < 0 ∨ (e.nverts : ℚ) ≤ vertex_id ∨
          pyRound vertex_id ≠ vertex_id then
        .error .inputValidationError
      else
        -- once past the validation, vertex_id is an integral nonnegative
        -- rational, so its numerator is the numpy row index
        mapLookupAll v2f
          ((e.sl.getD vertex_id.num.toNat []).filter
            fun n => decide (n ≠ e.invalid))

/-! ## Concrete engines used by the witnesses -/

/-- A small trained engine: two features, mapped to vertices 0 and 1. -/
def trainedEngine : CachedSurfaceQueryEngine :=
  { hemi := "lh", radius := 8, nverts := 32492, sl := [[1, 0, -99]],
    invalid := -99, vertex2feature_map := some [(0, 0), (1, 1)] }

/-- A Loaded (never trained) engine. -/
def loadedEngine : CachedSurfaceQueryEngine :=
  { hemi := "rh", radius := 10, nverts := 32492, sl := [[0, -99]],
    invalid := -99, vertex2feature_map := none }

end NPDL
namespace NPDL

theorem filter_ne_replicate (k : Nat) (a : Int) :
    (List.replicate k a).filter (fun x => decide (x ≠ a)) = [] := by
  induction k with
  | zero => rfl
  | succ n ih => simp [List.replicate_succ, List.filter_cons, ih]

/-- C1: right-padding ragged rows of in-range vertex ids with the sentinel
-99 up to the maximum row length, then dropping every -99 entry rowwise,
returns exactly the original rows with order preserved. -/
theorem encode_decode_roundtrip (num_vertices : Nat) (rows : List (List Int))
    (_hn : rows.length = num_vertices)
    (h : ∀ r ∈ rows, r ≠ [] ∧ ∀ x ∈ r, 0 ≤ x ∧ x < (num_vertices : Int)) :
    decode_searchlight (encode_searchlight rows) = rows := by
  unfold decode_searchlight encode_searchlight
  rw [List.map_map]
  conv_rhs => rw [show rows = rows.map id from (List.map_id rows).symm]
  refine List.map_congr_left ?_
  intro r hr
  obtain ⟨hne, hx⟩ := h r hr
  show (r ++ List.replicate (max_row_len rows - r.length) (-99)).filter
      (fun x => decide (x ≠ -99)) = id r
  rw [List.filter_append, filter_ne_replicate, List.append_nil]
  show r.filter (fun x => decide (x ≠ -99)) = r
  refine List.filter_eq_self.mpr ?_
  intro x hxr
  have h0 := (hx x hxr).1
  simp only [decide_eq_true_eq]
  omega

theorem encode_decode_roundtrip_witness :
    decode_searchlight (encode_searchlight [[0], [1, 2], [2]]) = [[0], [1, 2], [2]] := by
  exact encode_decode_roundtrip 3 [[0], [1, 2], [2]] (by decide) (by decide)

/-- C2: on any engine whose vertex-to-feature map is absent (as after
construction or after untrain), query_byid always fails with the
untrained-engine error and never returns a value; untrain itself discards
the map. -/
theorem query_untrained_fails (e e2 : CachedSurfaceQueryEngine) (vid vid2 : ℚ)
    (h : e.vertex2feature_map = none) :
    query_byid e vid = .error .untrainedError ∧
    (untrain e2).vertex2feature_map = none ∧
    query_byid (untrain e2) vid2 = .error .untrainedError := by
  refine ⟨?_, rfl, ?_⟩
  · unfold query_byid
    rw [h]
  · rfl

theorem query_untrained_fails_witness :
    query_byid loadedEngine 0 = .error .untrainedError ∧
    (untrain trainedEngine).vertex2feature_map = none ∧
    query_byid (untrain trainedEngine) 1 = .error .untrainedError := by
  exact query_untrained_fails loadedEngine trainedEngine 0 1 rfl

end NPDL
namespace NPDL

/-- C5 counterexample -/
theorem construct_pipeline_radius_counterexample :
    (4 : ℚ) ∈ pipeline_radii ∧ construct "lh" 4 [] = .error .configurationError := by
  exact ⟨by decide, by rfl⟩

/-- C5 amended -/
theorem construct_validation (hemi : String) (radius : ℚ) (cache : List (List Int)) :
    ((∃ e, construct hemi radius cache = .ok e ∧ e.vertex2feature_map = none) ↔
      ((hemi = "lh" ∨ hemi = "rh") ∧ radius ∈ allowed_radii)) ∧
    (construct hemi radius cache = .error .configurationError ↔
      ¬((hemi = "lh" ∨ hemi = "rh") ∧ radius ∈ allowed_radii)) ∧
    (allowed_radii.all fun r => decide (r ∈ pipeline_radii)) = true := by
  refine ⟨?_, ?_, by decide⟩ <;>
  · unfold construct
    by_cases h1 : hemi = "lh" ∨ hemi = "rh" <;>
      by_cases h2 : radius ∈ allowed_radii <;>
      simp [h1, h2]

/-- C7 -/
theorem concrete_mesh_adjacency :
    construct_neighbors 4 [(0, 1, 2), (0, 2, 3)] 50 =
      some [[1, 2, 3], [0, 2, 4], [0, 1, 3], [0, 2, 4]] ∧
    ([[1, 2, 3], [0, 2, 4], [0, 1, 3], [0, 2, 4]] : List (List Int)).map List.length =
      [3, 3, 3, 3] ∧
    ([[1, 2, 3], [0, 2, 4], [0, 1, 3], [0, 2, 4]] : List (List Int)).getD 1 [] =
      [0, 2, 4] := by
  exact ⟨by decide, by decide, by decide⟩

/-- C8 counterexample -/
theorem face_range_counterexample :
    ¬((5 : Int) < 3) ∧ (construct_neighbors 3 [(0, 1, 2), (0, 1, 5)] 50).isSome = true := by
  exact ⟨by decide, by decide⟩

/-- C8 amended -/
theorem construct_neighbors_no_face_validation :
    construct_neighbors 3 [(0, 1, 2), (0, 1, 5)] 50 =
      some [[1, 2, 5], [0, 2, 5], [0, 1, 3]] := by
  decide

/-- C9 counterexample -/
theorem find_neighbors_lower_no_stat_counterexample :
    find_neighbors [[1, 2], [0, 2], [0, 1]] 3 [0] true none = [1, 2] := by
  decide

end NPDL
namespace NPDL

theorem mem_insertSorted (x a : Int) (l : List Int) :
    a ∈ insertSorted x l ↔ a = x ∨ a ∈ l := by
  induction l with
  | nil => simp [insertSorted]
  | cons y ys ih =>
      by_cases h : x ≤ y
      · simp [insertSorted, h]
      · simp [insertSorted, h, ih]
        tauto

theorem mem_sortInts (a : Int) (l : List Int) : a ∈ sortInts l ↔ a ∈ l := by
  induction l with
  | nil => simp [sortInts]
  | cons x xs ih =>
      rw [show sortInts (x :: xs) = insertSorted x (sortInts xs) from rfl,
        mem_insertSorted, ih, List.mem_cons]

theorem mem_uniqueSorted (a : Int) (l : List Int) : a ∈ uniqueSorted l ↔ a ∈ l := by
  unfold uniqueSorted
  rw [List.mem_dedup, mem_sortInts]

theorem mem_facePairs_swap (f : Int × Int × Int) (a b : Int) :
    (a, b) ∈ facePairs f ↔ (b, a) ∈ facePairs f := by
  simp only [facePairs, List.mem_cons, List.mem_singleton, Prod.mk.injEq,
    List.not_mem_nil, or_false]
  tauto

theorem mem_faceContrib (f : Int × Int × Int) (a v : Int) :
    a ∈ faceContrib f v ↔ (v, a) ∈ facePairs f := by
  unfold faceContrib
  rw [List.mem_filterMap]
  constructor
  · rintro ⟨p, hp, he⟩
    by_cases h : p.1 = v
    · rw [if_pos h] at he
      injection he with he2
      have hpv : p = (v, a) := by
        obtain ⟨p1, p2⟩ := p
        simp only at h he2
        rw [h, he2]
      rwa [hpv] at hp
    · rw [if_neg h] at he
      cases he
  · intro hp
    exact ⟨(v, a), hp, by simp⟩

theorem mem_nbrList (faces : List (Int × Int × Int)) (a v : Int) :
    a ∈ nbrList faces v ↔ ∃ f ∈ faces, (v, a) ∈ facePairs f := by
  unfold nbrList
  rw [List.mem_flatten]
  constructor
  · rintro ⟨l, hl, hal⟩
    obtain ⟨f, hf, rfl⟩ := List.mem_map.mp hl
    exact ⟨f, hf, (mem_faceContrib f a v).mp hal⟩
  · rintro ⟨f, hf, hp⟩
    exact ⟨faceContrib f v, List.mem_map.mpr ⟨f, hf, rfl⟩, (mem_faceContrib f a v).mpr hp⟩

theorem nbrList_symm (faces : List (Int × Int × Int)) (a b : Int) :
    a ∈ nbrList faces b ↔ b ∈ nbrList faces a := by
  rw [mem_nbrList, mem_nbrList]
  constructor <;>
  · rintro ⟨f, hf, hp⟩
    exact ⟨f, hf, (mem_facePairs_swap f _ _).mp hp⟩

theorem construct_neighbors_getD (nv mn : Nat) (faces : List (Int × Int × Int))
    (tbl : List (List Int)) (h : construct_neighbors nv faces mn = some tbl)
    (v : Nat) (hv : v < nv) :
    tbl.getD v [] =
      padRow (adjWidth (adjRows nv faces)) (nv : Int)
        (uniqueSorted (nbrList faces (v : Int))) := by
  unfold construct_neighbors at h
  split at h
  case isTrue hc =>
    injection h with h
    subst h
    have h1 : (adjRows nv faces)[v]? = some (uniqueSorted (nbrList faces (v : Int))) := by
      simp [adjRows, List.getElem?_range, hv]
    rw [List.getD_eq_getElem?_getD, List.getElem?_map, h1]
    rfl
  case isFalse => cases h

theorem mem_row_iff (nv mn : Nat) (faces : List (Int × Int × Int))
    (tbl : List (List Int)) (h : construct_neighbors nv faces mn = some tbl)
    (a v : Nat) (ha : a < nv) (hv : v < nv) :
    ((a : Int) ∈ (tbl.getD v []).filter (fun x => decide (x ≠ (nv : Int)))) ↔
      (a : Int) ∈ nbrList faces (v : Int) := by
  rw [construct_neighbors_getD nv mn faces tbl h v hv]
  unfold padRow
  have hna : (a : Int) ≠ (nv : Int) := by
    intro hEq
    exact absurd (Int.natCast_inj.mp hEq) (Nat.ne_of_lt ha)
  rw [List.filter_append, List.mem_append]
  constructor
  · rintro (h1 | h2)
    · exact (mem_uniqueSorted _ _).mp (List.mem_filter.mp h1).1
    · exact absurd (List.eq_of_mem_replicate (List.mem_filter.mp h2).1) hna
  · intro hmem
    left
    exact List.mem_filter.mpr ⟨(mem_uniqueSorted _ _).mpr hmem, by simpa using hna⟩

/-- C6 -/
theorem adjacency_symmetric (nv mn : Nat) (faces : List (Int × Int × Int))
    (tbl : List (List Int)) (h : construct_neighbors nv faces mn = some tbl)
    (a b : Nat) (ha : a < nv) (hb : b < nv) :
    ((a : Int) ∈ (tbl.getD b []).filter (fun x => decide (x ≠ (nv : Int)))) ↔
    ((b : Int) ∈ (tbl.getD a []).filter (fun x => decide (x ≠ (nv : Int)))) := by
  rw [mem_row_iff nv mn faces tbl h a b ha hb,
    mem_row_iff nv mn faces tbl h b a hb ha, nbrList_symm]

theorem adjacency_symmetric_witness :
    ((1 : Int) ∈ (([[1, 2, 3], [0, 2, 4], [0, 1, 3], [0, 2, 4]] : List (List Int)).getD 0 []).filter
        (fun x => decide (x ≠ (4 : Int)))) ↔
    ((0 : Int) ∈ (([[1, 2, 3], [0, 2, 4], [0, 1, 3], [0, 2, 4]] : List (List Int)).getD 1 []).filter
        (fun x => decide (x ≠ (4 : Int)))) := by
  exact adjacency_symmetric 4 50 [(0, 1, 2), (0, 2, 3)]
    [[1, 2, 3], [0, 2, 4], [0, 1, 3], [0, 2, 4]] (by decide) 1 0 (by decide) (by decide)

end NPDL
namespace NPDL

/-- C9 amended -/
theorem find_neighbors_lower_spec (neighbors : List (List Int)) (nv : Nat)
    (verts : List Nat) (s : List Int) (x : Int)
    (_hs : s.length = nv)
    (_hverts : ∀ v ∈ verts, v < nv)
    (_hentries : ∀ v ∈ verts, ∀ e ∈ neighbors.getD v [], 0 ≤ e ∧ e ≤ (nv : Int)) :
    find_neighbors neighbors nv verts true none = find_neighbors neighbors nv verts false none ∧
    (x ∈ find_neighbors neighbors nv verts true (some s) ↔
      (x ≠ (nv : Int) ∧ ∃ v ∈ verts, x ∈ neighbors.getD v [] ∧
        s.getD x.toNat 0 ≤ s.getD v 0)) := by
  constructor
  · rfl
  · unfold find_neighbors
    rw [List.mem_filter, mem_uniqueSorted, List.mem_flatten]
    simp only [List.mem_map, decide_eq_true_eq]
    constructor
    · rintro ⟨⟨l, ⟨v, hv, rfl⟩, hx⟩, hne⟩
      have hm := List.mem_filter.mp hx
      have hb := hm.2
      simp only [Bool.and_eq_true, decide_eq_true_eq] at hb
      exact ⟨hne, v, hv, hm.1, hb.2⟩
    · rintro ⟨hne, v, hv, hmem, hle⟩
      refine ⟨⟨_, ⟨v, hv, rfl⟩, ?_⟩, hne⟩
      refine List.mem_filter.mpr ⟨hmem, ?_⟩
      simp only [Bool.and_eq_true, decide_eq_true_eq]
      exact ⟨hne, hle⟩

theorem find_neighbors_lower_spec_witness :
    ((2 : Int) ∈ find_neighbors [[1, 2, 3], [0, 2, 3], [0, 1, 3]] 3 [0] true (some [5, 9, 4]) ↔
      ((2 : Int) ≠ (3 : Int) ∧ ∃ v ∈ [0], (2 : Int) ∈ ([[1, 2, 3], [0, 2, 3], [0, 1, 3]] : List (List Int)).getD v [] ∧
        ([5, 9, 4] : List Int).getD (2 : Int).toNat 0 ≤ ([5, 9, 4] : List Int).getD v 0)) := by
  exact (find_neighbors_lower_spec [[1, 2, 3], [0, 2, 3], [0, 1, 3]] 3 [0] [5, 9, 4] 2
    (by decide) (by decide) (by decide)).2

theorem mapLookupAll_ok (v2f : List (Int × Nat)) (l : List Int)
    (h : ∀ n ∈ l, dictLookup v2f n ≠ none) :
    mapLookupAll v2f l = .ok (l.filterMap (dictLookup v2f)) := by
  induction l with
  | nil => rfl
  | cons n ns ih =>
      have hn := h n (List.mem_cons_self n ns)
      match hd : dictLookup v2f n with
      | none => exact absurd hd hn
      | some f =>
          rw [show mapLookupAll v2f (n :: ns) =
              (match dictLookup v2f n with
                | none => .error .lookupConsistencyError
                | some f =>
                    match mapLookupAll v2f ns with
                    | .error err => .error err
                    | .ok fs => .ok (f :: fs)) from rfl]
          rw [hd, ih (fun m hm => h m (List.mem_cons_of_mem n hm))]
          rw [List.filterMap_cons, hd]

theorem mapLookupAll_error (v2f : List (Int × Nat)) (l : List Int)
    (h : ∃ n ∈ l, dictLookup v2f n = none) :
    mapLookupAll v2f l = .error .lookupConsistencyError := by
  induction l with
  | nil => simp at h
  | cons n ns ih =>
      obtain ⟨m, hm, hnone⟩ := h
      rw [show mapLookupAll v2f (n :: ns) =
          (match dictLookup v2f n with
            | none => .error .lookupConsistencyError
            | some f =>
                match mapLookupAll v2f ns with
                | .error err => .error err
                | .ok fs => .ok (f :: fs)) from rfl]
      rcases List.mem_cons.mp hm with rfl | hmem
      · rw [hnone]
      · match hd : dictLookup v2f n with
        | none => rfl
        | some f => rw [ih ⟨m, hmem, hnone⟩]

/-- C4 -/
theorem query_lookup_consistency (e : CachedSurfaceQueryEngine) (m : List (Int × Nat))
    (vid : ℚ) (hm : e.vertex2feature_map = some m)
    (hv : ¬(vid < 0 ∨ (e.nverts : ℚ) ≤ vid ∨ pyRound vid ≠ vid)) :
    ((∃ n ∈ (e.sl.getD vid.num.toNat []).filter (fun n => decide (n ≠ e.invalid)),
        dictLookup m n = none) →
      query_byid e vid = .error .lookupConsistencyError) ∧
    ((∀ n ∈ (e.sl.getD vid.num.toNat []).filter (fun n => decide (n ≠ e.invalid)),
        dictLookup m n ≠ none) →
      query_byid e vid =
        .ok (((e.sl.getD vid.num.toNat []).filter
          (fun n => decide (n ≠ e.invalid))).filterMap (dictLookup m))) := by
  unfold query_byid
  simp only [hm]
  constructor
  · intro hex
    rw [if_neg hv]
    exact mapLookupAll_error m _ hex
  · intro hall
    rw [if_neg hv]
    exact mapLookupAll_ok m _ hall

theorem query_lookup_consistency_witness :
    query_byid trainedEngine 0 = .ok [1, 0] := by
  have h := (query_lookup_consistency trainedEngine [(0, 0), (1, 1)] 0 rfl (by decide)).2 (by decide)
  rw [h]
  rfl

end NPDL
namespace NPDL

/-- C3 counterexample -/
theorem project_coord_no_validation_counterexample :
    project_coord [(0, 0, 0), (1, 0, 0)] (1 / 2, 0, 0) = some 0 := by
  norm_num [project_coord, argminIdx, argminAux, sqDist]

/-- C3 amended -/
theorem query_range_check (e : CachedSurfaceQueryEngine) (m : List (Int × Nat))
    (vid : ℚ) (coords : List (ℚ × ℚ × ℚ)) (c : ℚ × ℚ × ℚ)
    (hm : e.vertex2feature_map = some m)
    (hv : vid < 0 ∨ (e.nverts : ℚ) ≤ vid ∨ pyRound vid ≠ vid)
    (hc : coords ≠ []) :
    query_byid e vid = .error .inputValidationError ∧
    ∃ v, project_coord coords c = some v := by
  constructor
  · unfold query_byid
    simp only [hm]
    rw [if_pos hv]
  · match coords, hc with
    | p :: ps, _ =>
        exact ⟨argminAux (ps.map fun q => sqDist q c) (sqDist p c) 0 1, rfl⟩

theorem query_range_check_witness :
    query_byid trainedEngine (-1) = .error .inputValidationError ∧
    ∃ v, project_coord [((0 : ℚ), (0 : ℚ), (0 : ℚ))] ((1 : ℚ), (2 : ℚ), (3 : ℚ)) = some v := by
  exact query_range_check trainedEngine [(0, 0), (1, 1)] (-1) [(0, 0, 0)] (1, 2, 3)
    rfl (by decide) (by decide)

/-- C10 -/
theorem train_retrain_replaces (e e1 : CachedSurfaceQueryEngine) (d1 d2 : List Int)
    (h1 : train e d1 = .ok e1)
    (h2 : ∀ v ∈ d2, 0 ≤ v ∧ v < (e.nverts : Int)) :
    train e1 d2 =
      .ok { e with vertex2feature_map := some (d2.zip (List.range d2.length)) } ∧
    train e1 d2 = train e d2 ∧
    train e1 d2 = train (untrain e1) d2 := by
  unfold train at h1
  split at h1
  case isFalse => cases h1
  case isTrue hcond =>
    injection h1 with h1
    subst h1
    have hall : (d2.all fun v => decide (0 ≤ v) && decide (v < (e.nverts : Int))) = true := by
      rw [List.all_eq_true]
      intro v hv
      simp only [Bool.and_eq_true, decide_eq_true_eq]
      exact h2 v hv
    refine ⟨?_, rfl, rfl⟩
    unfold train
    rw [if_pos hall]

theorem train_retrain_replaces_witness :
    train { loadedEngine with vertex2feature_map := some ([0].zip (List.range 1)) } [5, 3] =
      .ok { loadedEngine with vertex2feature_map := some ([5, 3].zip (List.range 2)) } := by
  exact (train_retrain_replaces loadedEngine
    { loadedEngine with vertex2feature_map := some ([0].zip (List.range 1)) }
    [0] [5, 3] (by rfl) (by decide)).1

end NPDL
